import Mathlib

/-!
# Backup lifecycle of `server/backup/backup_local.go`

A shallow embedding of the Go functions `NewLocal`, `LocateLocal`,
`LocalBackup.Remove`, `LocalBackup.Generate`, `LocalBackup.copyFile` and
`LocalBackup.Restore`.

Go statements become explicit state passing over a `World` (the remote
account's buckets, the local files, and a log of the collaborator calls made).
The collaborators the file calls but does not define (the object-storage
client, the archive builder, the archive walker, `os`) are fallible; the
outcome each of their calls has during one operation is given by a `Faults`
record, so every theorem quantifies over every such outcome.

`buckets[0]` is embedded with total indexing: an empty list gives the outcome
`Outcome.indexOutOfRange` (the Go runtime panic) instead of a returned value.
Calls to `b.log()` have no effect on the values studied and are left out.
-/

set_option autoImplicit false

namespace BackupLocal

/-! ## Errors -/

/-- Go `error` values that occur in the file. `wrap` is the value built by
`errors.Wrap` and `errors.WrapIf` of `emperror.dev/errors`. -/
inductive GoError where
  /-- The sentinel `os.ErrNotExist`. -/
  | ErrNotExist
  /-- The sentinel `archiver.ErrStopWalk`. -/
  | ErrStopWalk
  /-- An error produced by a collaborator, identified by its message. -/
  | other (msg : String)
  /-- The error `cause` annotated with `msg`. -/
  | wrap (cause : GoError) (msg : String)
  deriving DecidableEq, Repr

/-- The `Error()` method: a wrapped error prints as `msg: cause`. -/
def GoError.Error : GoError → String
  | .ErrNotExist => "file does not exist"
  | .ErrStopWalk => "walk stopped"
  | .other msg => msg
  | .wrap cause msg => msg ++ ": " ++ cause.Error

/-- `errors.Wrap(err, message)` for a non-nil `err`. -/
def errorsWrap (err : GoError) (message : String) : GoError :=
  .wrap err message

/-- `errors.WrapIf(err, message)` for a non-nil `err`; it differs from
`errors.Wrap` only in the stack trace, which is not modelled. -/
def errorsWrapIf (err : GoError) (message : String) : GoError :=
  .wrap err message

/-- The text `sub` occurs in `s`. -/
def containsText (s sub : String) : Prop :=
  sub.data <:+: s.data

instance (s sub : String) : Decidable (containsText s sub) := by
  unfold containsText; infer_instance

/-! ## Results of a Go call -/

/-- How a call ends: it returns a value, or the runtime panics on `buckets[0]`
of an empty slice. -/
inductive Outcome (α : Type) where
  | returned (value : α)
  | indexOutOfRange
  deriving DecidableEq, Repr

/-! ## Data model -/

/-- The storage back ends; `NewLocal` uses `LocalBackupAdapter`. -/
inductive AdapterType where
  | LocalBackupAdapter
  deriving DecidableEq, Repr

/-- The fields of `Backup` that `NewLocal` sets (the `client` handle carries no
data used here). -/
structure Backup where
  Uuid : String
  Ignore : String
  adapter : AdapterType
  deriving DecidableEq, Repr

/-- The `LocalBackup` struct: it embeds `Backup`. -/
structure LocalBackup where
  Backup : Backup
  deriving DecidableEq, Repr

/-- `NewLocal(client, uuid, ignore)`. -/
def NewLocal (uuid : String) (ignore : String) : LocalBackup :=
  { Backup := { Uuid := uuid, Ignore := ignore, adapter := .LocalBackupAdapter } }

/-- The attributes `b2.Attrs` of a stored object. -/
structure Attrs where
  Name : String
  Size : Nat
  deriving DecidableEq, Repr

/-- The value `ArchiveDetails` computed by `Backup.Details`. -/
structure ArchiveDetails where
  Checksum : String
  ChecksumType : String
  Size : Nat
  deriving DecidableEq, Repr

/-- A bucket of the remote account: its objects, key to attributes. -/
structure Bucket where
  Name : String
  objects : List (String × Attrs)
  deriving DecidableEq, Repr

/-- The attributes stored under `key`, if any. -/
def Bucket.lookup (b : Bucket) (key : String) : Option Attrs :=
  b.objects.lookup key

/-- The bucket without any object under `key`. -/
def Bucket.erase (b : Bucket) (key : String) : Bucket :=
  { b with objects := b.objects.filter (fun p => p.1 != key) }

/-- The bucket after a completed write of `size` bytes under `key`: the object
replaces any earlier one and its attributes carry the key as name. -/
def Bucket.put (b : Bucket) (key : String) (size : Nat) : Bucket :=
  { b with objects := (key, { Name := key, Size := size }) :: (b.erase key).objects }

/-- The collaborator calls an operation makes, in order. -/
inductive Event where
  | listBuckets
  | objectAttrs (key : String)
  | objectDelete (key : String)
  | archiveCreate (basePath : String) (ignore : String) (dst : String)
  | osOpen (path : String)
  | objectWrite (key : String)
  | details
  | osRemove (path : String)
  deriving DecidableEq, Repr

/-- The state the operations act on. -/
structure World where
  /-- The buckets of the account, in the order `ListBuckets` reports them. -/
  buckets : List Bucket
  /-- The local files: path and size. -/
  files : List (String × Nat)
  /-- The collaborator calls made so far. -/
  events : List Event
  deriving DecidableEq, Repr

/-- The world with one more recorded call. -/
def World.record (w : World) (e : Event) : World :=
  { w with events := w.events ++ [e] }

/-- The local path `p` exists. -/
def World.fileExists (w : World) (p : String) : Prop :=
  p ∈ w.files.map Prod.fst

instance (w : World) (p : String) : Decidable (w.fileExists p) := by
  unfold World.fileExists; infer_instance

/-- What the file relies on but does not define. -/
structure Env where
  /-- The method `Backup.Path`: the local archive path of a backup. -/
  Path : Backup → String
  /-- The error `Object.Attrs` and `Object.Delete` return for a key that holds
  no object; `none` when absence is reported by nil attributes and a nil
  error. -/
  absentErr : Option GoError

/-- The outcome of each fallible collaborator call during one operation;
`none` is the nil error. -/
structure Faults where
  /-- `ListBuckets`. The error of `b2.NewClient` is overwritten by this one in
  all three functions, so it is the only one they test. -/
  listBuckets : Option GoError
  /-- A failure of `Object.Attrs` other than absence of the object. -/
  attrs : Option GoError
  /-- A failure of `Object.Delete` other than absence; the object stays. -/
  delete : Option GoError
  /-- `Archive.Create`. -/
  create : Option GoError
  /-- Whether a failed `Archive.Create` leaves a file at the destination. -/
  createLeavesFile : Bool
  /-- The size of the archive `Archive.Create` produces. -/
  archiveSize : Nat
  /-- `os.Open`, for a file that exists. -/
  osOpen : Option GoError
  /-- `io.Copy` into the object writer. -/
  ioCopy : Option GoError
  /-- `Close` of the object writer after a completed copy. -/
  writerClose : Option GoError
  /-- `Backup.Details`. -/
  details : Except GoError ArchiveDetails
  /-- `os.Remove`, for a file that exists. -/
  osRemove : Option GoError

/-! ## Collaborators

The calls the file makes into the object-storage client, the archive builder
and `os`. Whether a call fails is read from `Faults`; a call that succeeds has
the effect its name says on the `World`. -/

/-- `Object.Attrs` on the object `key` of `bucket`. -/
def objectAttrs (env : Env) (ft : Faults) (bucket : Bucket) (key : String) :
    Option Attrs × Option GoError :=
  match ft.attrs with
  | some err => (none, some err)
  | none =>
    match bucket.lookup key with
    | some a => (some a, none)
    | none => (none, env.absentErr)

/-- `Object.Delete` on the object `key` of `bucket`: the bucket afterwards and
the error. -/
def objectDelete (env : Env) (ft : Faults) (bucket : Bucket) (key : String) :
    Bucket × Option GoError :=
  match ft.delete with
  | some err => (bucket, some err)
  | none =>
    match bucket.lookup key with
    | some _ => (bucket.erase key, none)
    | none => (bucket, env.absentErr)

/-- The world after a file of `size` bytes is written at `p`. -/
def World.writeFile (w : World) (p : String) (size : Nat) : World :=
  { w with files := (p, size) :: w.files.filter (fun f => f.1 != p) }

/-- `a.Create(dst)` for the archive of `basePath` under the pattern `ignore`. -/
def archiveCreate (ft : Faults) (w : World) (basePath ignore dst : String) :
    Option GoError × World :=
  let w1 := w.record (.archiveCreate basePath ignore dst)
  match ft.create with
  | some err => (some err, if ft.createLeavesFile then w1.writeFile dst ft.archiveSize else w1)
  | none => (none, w1.writeFile dst ft.archiveSize)

/-- `os.Open(path)`: the size of the opened file, or the error. -/
def osOpen (ft : Faults) (w : World) (path : String) : Except GoError Nat :=
  match w.files.lookup path with
  | none => .error (.wrap .ErrNotExist ("open " ++ path))
  | some size =>
    match ft.osOpen with
    | some err => .error err
    | none => .ok size

/-- `os.Remove(path)`. -/
def osRemove (ft : Faults) (w : World) (path : String) : Option GoError × World :=
  let w1 := w.record (.osRemove path)
  match w1.files.lookup path with
  | none => (some (.wrap .ErrNotExist ("remove " ++ path)), w1)
  | some _ =>
    match ft.osRemove with
    | some err => (some err, w1)
    | none => (none, { w1 with files := w1.files.filter (fun f => f.1 != path) })

/-! ## `LocateLocal` -/

/-- The three results of `LocateLocal`. -/
abbrev LocateResult := Option LocalBackup × Option Attrs × Option GoError

/-- `LocateLocal(client, uuid)`. -/
def LocateLocal (env : Env) (ft : Faults) (w : World) (uuid : String) :
    Outcome LocateResult × World :=
  let b := NewLocal uuid ""
  let w1 := w.record .listBuckets
  match ft.listBuckets with
  | some err => (.returned (none, none, some (errorsWrap err "backup: could not list buckets jj")), w1)
  | none =>
    match w1.buckets with
    | [] => (.indexOutOfRange, w1)
    | bucket :: _ =>
      let destination := b.Backup.Uuid ++ ".tar.gz"
      let w2 := w1.record (.objectAttrs destination)
      match objectAttrs env ft bucket destination with
      | (_, some err) => (.returned (none, none, some err), w2)
      | (none, none) => (.returned (none, none, some .ErrNotExist), w2)
      | (some attrs, none) => (.returned (some b, some attrs, none), w2)

/-! ## `Remove` -/

/-- `(b *LocalBackup) Remove()`. The result of `obj.Delete(ctx)` is discarded
and the function ends with `return nil`. -/
def LocalBackup.Remove (env : Env) (ft : Faults) (w : World) (b : LocalBackup) :
    Outcome (Option GoError) × World :=
  let w1 := w.record .listBuckets
  match ft.listBuckets with
  | some err => (.returned (some (errorsWrap err "backup: could not list buckets jj")), w1)
  | none =>
    match w1.buckets with
    | [] => (.indexOutOfRange, w1)
    | bucket :: rest =>
      let destination := b.Backup.Uuid ++ ".tar.gz"
      let w2 := w1.record (.objectDelete destination)
      let (bucket', _) := objectDelete env ft bucket destination
      (.returned none, { w2 with buckets := bucket' :: rest })

/-! ## `Generate` -/

/-- `(b *LocalBackup) copyFile(ctx, bucket, src, dst)`: the error, and the
bucket afterwards. An object is stored only by a copy and a `Close` that both
succeed. -/
def LocalBackup.copyFile (ft : Faults) (w : World) (bucket : Bucket) (src dst : String) :
    Option GoError × Bucket × World :=
  let w1 := w.record (.osOpen src)
  match osOpen ft w1 src with
  | .error err => (some err, bucket, w1)
  | .ok size =>
    let w2 := w1.record (.objectWrite dst)
    match ft.ioCopy with
    | some err => (some err, bucket, w2)
    | none =>
      match ft.writerClose with
      | some err => (some err, bucket, w2)
      | none => (none, bucket.put dst size, w2)

/-- The two results of `Generate`. -/
abbrev GenerateResult := Option ArchiveDetails × Option GoError

/-- The statements of `Generate` after the `defer`. -/
def generateBody (env : Env) (ft : Faults) (w : World) (b : LocalBackup)
    (basePath ignore : String) : Outcome GenerateResult × World :=
  let w1 := w.record .listBuckets
  match ft.listBuckets with
  | some err => (.returned (none, some (errorsWrap err "backup: could not list buckets jj")), w1)
  | none =>
    match w1.buckets with
    | [] => (.indexOutOfRange, w1)
    | bucket :: rest =>
      match archiveCreate ft w1 basePath ignore (env.Path b.Backup) with
      | (some err, w2) => (.returned (none, some err), w2)
      | (none, w2) =>
        let destination := b.Backup.Uuid ++ ".tar.gz"
        match LocalBackup.copyFile ft w2 bucket (env.Path b.Backup) destination with
        | (some err, bucket', w3) =>
          (.returned (none, some (errorsWrap err "backup: could not upload archive to s3 JJ")),
            { w3 with buckets := bucket' :: rest })
        | (none, bucket', w3) =>
          let w4 := World.record { w3 with buckets := bucket' :: rest } .details
          match ft.details with
          | .error err =>
            (.returned (none, some (errorsWrapIf err "backup: failed to get archive details for local backup")), w4)
          | .ok ad => (.returned (some ad, none), w4)

/-- `(b *LocalBackup) Generate(ctx, basePath, ignore)`: the body, then the
deferred `os.Remove(b.Path())`, which Go runs on every exit, a panic
included; its result is discarded. -/
def LocalBackup.Generate (env : Env) (ft : Faults) (w : World) (b : LocalBackup)
    (basePath ignore : String) : Outcome GenerateResult × World :=
  let (r, w') := generateBody env ft w b basePath ignore
  (r, (osRemove ft w' (env.Path b.Backup)).2)

/-! ## `Restore` -/

/-- An entry `archiver.File` of an archive. -/
structure ArchiveFile where
  Name : String
  IsDir : Bool
  Mode : Nat
  ModTime : Nat
  deriving DecidableEq, Repr

/-- A `RestoreCallback` with its own state `σ`: it receives the extracted name
and the entry (its reader, mode and times) and returns an error or nil. -/
abbrev RestoreCallback (σ : Type) := σ → String → ArchiveFile → σ × Option GoError

/-- The state of one walk. -/
structure WalkState (σ : Type) where
  /-- The state of the callback. -/
  cb : σ
  /-- How many entries the visitor has been given. -/
  visited : Nat
  /-- The callback invocations so far: extracted name and entry. -/
  calls : List (String × ArchiveFile)

/-- The function literal `Restore` passes to `archiver.Walk`. `done k` tells
whether `ctx.Done()` is closed when the visitor is given its `k`-th entry
(counted from 0); `extractName` is `filesystem.ExtractNameFromArchive`. -/
def restoreVisitor {σ : Type} (extractName : ArchiveFile → String) (done : Nat → Bool)
    (callback : RestoreCallback σ) (st : WalkState σ) (f : ArchiveFile) :
    WalkState σ × Option GoError :=
  if done st.visited then
    ({ st with visited := st.visited + 1 }, some .ErrStopWalk)
  else if f.IsDir then
    ({ st with visited := st.visited + 1 }, none)
  else
    let (cb', err) := callback st.cb (extractName f) f
    ({ cb := cb', visited := st.visited + 1,
       calls := st.calls ++ [(extractName f, f)] }, err)

/-- The error a walk returns when the visitor fails on the entry `f` with
`err`: a new error whose message is `walking <name of f>: <message of err>`. -/
def walkError (f : ArchiveFile) (err : GoError) : GoError :=
  .other ("walking " ++ f.Name ++ ": " ++ err.Error)

/-- Modelled from the spec: `archiver.Walk`, which is not part of the source
file. The visitor is given the entries in archive order; it "may return a
special stop sentinel to end the walk early without error", and any other
error it returns "propagates and ends the walk": the walk ends at that entry
and returns `walkError`, the error that carries the visitor's error in its
message. -/
def archiverWalk {σ : Type} (walkFn : σ → ArchiveFile → σ × Option GoError) :
    List ArchiveFile → σ → σ × Option GoError
  | [], s => (s, none)
  | f :: rest, s =>
    match walkFn s f with
    | (s', none) => archiverWalk walkFn rest s'
    | (s', some err) => if err = .ErrStopWalk then (s', none) else (s', some (walkError f err))

/-- `(b *LocalBackup) Restore(ctx, _, callback)` on the archive at `b.Path()`,
whose entries are `archive`, or whose opening fails with an error. -/
def LocalBackup.Restore {σ : Type} (extractName : ArchiveFile → String) (done : Nat → Bool)
    (archive : Except GoError (List ArchiveFile)) (callback : RestoreCallback σ) (s : σ) :
    WalkState σ × Option GoError :=
  match archive with
  | .error err => ({ cb := s, visited := 0, calls := [] }, some err)
  | .ok entries =>
    archiverWalk (restoreVisitor extractName done callback) entries
      { cb := s, visited := 0, calls := [] }

/-- The callback invocations of a complete walk: the entries that are not
directories, in archive order, each with its extracted name. -/
def fileCalls (extractName : ArchiveFile → String) (entries : List ArchiveFile) :
    List (String × ArchiveFile) :=
  (entries.filter (fun f => !f.IsDir)).map (fun f => (extractName f, f))

/-- The state of the callback after it has been invoked, in archive order, on
the entries of `entries` that are not directories, starting from `s`. -/
def callbackState {σ : Type} (extractName : ArchiveFile → String)
    (callback : RestoreCallback σ) : List ArchiveFile → σ → σ
  | [], s => s
  | g :: rest, s =>
    if g.IsDir then callbackState extractName callback rest s
    else callbackState extractName callback rest (callback s (extractName g) g).1

/-! ## Concrete inputs -/

/-- A setting where the store reports an absent object by an error of its own. -/
def envAbsentByError : Env :=
  { Path := fun b => "/var/lib/backups/" ++ b.Uuid ++ ".tar.gz",
    absentErr := some (.other "b2: object not found") }

/-- A setting where the store reports an absent object by nil attributes. -/
def envAbsentByNil : Env :=
  { Path := fun b => "/var/lib/backups/" ++ b.Uuid ++ ".tar.gz",
    absentErr := none }

/-- Every collaborator call succeeds. -/
def noFaults : Faults :=
  { listBuckets := none, attrs := none, delete := none, create := none,
    createLeavesFile := false, archiveSize := 42, osOpen := none, ioCopy := none,
    writerClose := none,
    details := .ok { Checksum := "da39a3", ChecksumType := "sha1", Size := 42 },
    osRemove := none }

/-- An account with one bucket that holds no object. -/
def emptyBucketWorld : World :=
  { buckets := [{ Name := "main", objects := [] }], files := [], events := [] }

/-- An account with one bucket that holds the archive of `abc123`. -/
def storedWorld : World :=
  { buckets := [{ Name := "main",
                  objects := [("abc123.tar.gz", { Name := "abc123.tar.gz", Size := 42 })] }],
    files := [], events := [] }

/-- The delete call fails with an error that is not an absence error. -/
def deleteFault : Faults :=
  { noFaults with delete := some (.other "b2: internal error") }

/-- An account without any bucket. -/
def noBucketWorld : World :=
  { buckets := [], files := [], events := [] }

/-- An account with two buckets; only the second holds the archive of `abc123`. -/
def twoBucketWorld : World :=
  { buckets := [{ Name := "main", objects := [] },
                { Name := "spare",
                  objects := [("abc123.tar.gz", { Name := "abc123.tar.gz", Size := 42 })] }],
    files := [], events := [] }

/-- Bucket listing fails. -/
def listFault : Faults :=
  { noFaults with listBuckets := some (.other "b2: unauthorized") }

/-- The archive builder fails and leaves a partial file. -/
def createFault : Faults :=
  { noFaults with create := some (.other "archive: permission denied"), createLeavesFile := true }

/-- The copy into the object writer fails. -/
def copyFault : Faults :=
  { noFaults with ioCopy := some (.other "b2: connection reset") }

/-- The archive with the file `a.txt`, the directory `dir/` and the file
`dir/b.txt`. -/
def exampleArchive : List ArchiveFile :=
  [{ Name := "a.txt", IsDir := false, Mode := 420, ModTime := 1700000000 },
   { Name := "dir/", IsDir := true, Mode := 493, ModTime := 1700000001 },
   { Name := "dir/b.txt", IsDir := false, Mode := 420, ModTime := 1700000002 }]

/-- The name extraction of an archive whose headers hold the relative names. -/
def headerName (f : ArchiveFile) : String :=
  f.Name

/-- A context that is never cancelled. -/
def neverDone : Nat → Bool :=
  fun _ => false

/-- A context that is cancelled before the first entry. -/
def alreadyDone : Nat → Bool :=
  fun _ => true

/-- A callback that counts its invocations and never fails. -/
def countingCallback : RestoreCallback Nat :=
  fun n _ _ => (n + 1, none)

/-- A callback that counts its invocations and fails on its second
invocation, whatever the entry. -/
def failingCallback : RestoreCallback Nat :=
  fun n _ _ => (n + 1, if n = 1 then some (.other "disk full") else none)

/-- The archive that holds the file `a.txt` twice, then the file `c.txt`. -/
def repeatedArchive : List ArchiveFile :=
  [{ Name := "a.txt", IsDir := false, Mode := 420, ModTime := 1700000000 },
   { Name := "a.txt", IsDir := false, Mode := 420, ModTime := 1700000000 },
   { Name := "c.txt", IsDir := false, Mode := 420, ModTime := 1700000003 }]

/-- The entry for the file `c.txt`. -/
def laterFile : ArchiveFile :=
  { Name := "c.txt", IsDir := false, Mode := 420, ModTime := 1700000003 }

/-! ## Lemmas on the store -/

theorem lookup_filter_ne (key : String) (l : List (String × Attrs)) :
    (l.filter (fun p => p.1 != key)).lookup key = none := by
  induction l with
  | nil => rfl
  | cons p ps ih =>
    by_cases h : p.1 = key
    · have hb : (p.1 != key) = false := by simp [h]
      have hf : (p :: ps).filter (fun q => q.1 != key) = ps.filter (fun q => q.1 != key) :=
        List.filter_cons_of_neg (by simp [h])
      rw [hf]
      exact ih
    · have hb : (p.1 != key) = true := by simpa using h
      have h' : (key == p.1) = false := by simpa using fun h2 => h h2.symm
      have hf : (p :: ps).filter (fun q => q.1 != key) = p :: ps.filter (fun q => q.1 != key) :=
        List.filter_cons_of_pos (by simpa using h)
      rw [hf]
      obtain ⟨k, v⟩ := p
      simp only [List.lookup, h']
      exact ih

theorem Bucket.lookup_erase (b : Bucket) (key : String) : (b.erase key).lookup key = none := by
  unfold Bucket.lookup Bucket.erase
  exact lookup_filter_ne key b.objects

theorem Bucket.lookup_put (b : Bucket) (key : String) (size : Nat) :
    (b.put key size).lookup key = some { Name := key, Size := size } := by
  simp [Bucket.lookup, Bucket.put, List.lookup]

theorem objectDelete_lookup (env : Env) (ft : Faults) (bucket : Bucket) (key : String)
    (h : ft.delete = none) : (objectDelete env ft bucket key).1.lookup key = none := by
  unfold objectDelete
  rw [h]
  cases hl : bucket.lookup key with
  | none => simpa using hl
  | some a => simpa using Bucket.lookup_erase bucket key

/-! ## `LocateLocal` on an absent object -/

theorem LocateLocal_absent_aux (env : Env) (ft : Faults) (w : World) (uuid : String)
    (bucket : Bucket) (rest : List Bucket)
    (hlist : ft.listBuckets = none) (hbuckets : w.buckets = bucket :: rest)
    (hattrs : ft.attrs = none) (habsent : bucket.lookup (uuid ++ ".tar.gz") = none) :
    (LocateLocal env ft w uuid).1
      = .returned (none, none, some (env.absentErr.getD .ErrNotExist)) := by
  unfold LocateLocal
  simp only [hlist, World.record, hbuckets, NewLocal, objectAttrs, hattrs, habsent]
  cases env.absentErr <;> rfl

/-- C1, as stated, fails: bucket listing succeeds, the only bucket holds no
object under `abc123.tar.gz`, the store reports the absence by an error, and
`LocateLocal` returns that error, not `os.ErrNotExist`. -/
theorem LocateLocal_absent_counterexample :
    noFaults.listBuckets = none ∧
    emptyBucketWorld.buckets = [{ Name := "main", objects := [] }] ∧
    Bucket.lookup { Name := "main", objects := [] } ("abc123" ++ ".tar.gz") = none ∧
    (LocateLocal envAbsentByError noFaults emptyBucketWorld "abc123").1
      = .returned (none, none, some (.other "b2: object not found")) ∧
    (LocateLocal envAbsentByError noFaults emptyBucketWorld "abc123").1
      ≠ .returned (none, none, some .ErrNotExist) := by
  refine ⟨rfl, rfl, rfl, rfl, ?_⟩
  decide

/-- C1, amended: when bucket listing succeeds with at least one bucket, the
first bucket holds no object under `uuid + ".tar.gz"` and the lookup does not
fail otherwise, `LocateLocal` returns no backup, no attributes, and as error
`os.ErrNotExist` if the store reports absence by nil attributes, else the
error by which the store reports absence, unchanged. -/
theorem LocateLocal_absent (env : Env) (ft : Faults) (w : World) (uuid : String)
    (bucket : Bucket) (rest : List Bucket)
    (hlist : ft.listBuckets = none) (hbuckets : w.buckets = bucket :: rest)
    (hattrs : ft.attrs = none) (habsent : bucket.lookup (uuid ++ ".tar.gz") = none) :
    (LocateLocal env ft w uuid).1
      = .returned (none, none, some (env.absentErr.getD .ErrNotExist)) :=
  LocateLocal_absent_aux env ft w uuid bucket rest hlist hbuckets hattrs habsent

/-- The amended C1 at a store that reports absence by nil attributes: the
error is `os.ErrNotExist`. -/
theorem LocateLocal_absent_witness :
    (LocateLocal envAbsentByNil noFaults emptyBucketWorld "abc123").1
      = .returned (none, none, some .ErrNotExist) :=
  LocateLocal_absent envAbsentByNil noFaults emptyBucketWorld "abc123"
    { Name := "main", objects := [] } [] rfl rfl rfl rfl

/-! ## `Remove` -/

/-- C5, as stated, fails: bucket listing succeeds, the delete call returns an
error that is not an absence error, and `Remove` returns nil instead of that
error. -/
theorem Remove_delete_error_counterexample :
    deleteFault.listBuckets = none ∧
    deleteFault.delete = some (.other "b2: internal error") ∧
    (objectDelete envAbsentByError deleteFault
        { Name := "main",
          objects := [("abc123.tar.gz", { Name := "abc123.tar.gz", Size := 42 })] }
        "abc123.tar.gz").2 = some (.other "b2: internal error") ∧
    (LocalBackup.Remove envAbsentByError deleteFault storedWorld (NewLocal "abc123" "")).1
      = .returned none ∧
    (LocalBackup.Remove envAbsentByError deleteFault storedWorld (NewLocal "abc123" "")).1
      ≠ .returned (some (.other "b2: internal error")) := by
  refine ⟨rfl, rfl, rfl, rfl, ?_⟩
  decide

/-- C5, amended: when bucket listing succeeds with at least one bucket,
`Remove` returns nil whatever the delete call returns, an absence error or any
other error included: the result of the delete call is discarded. -/
theorem Remove_returns_nil (env : Env) (ft : Faults) (w : World) (b : LocalBackup)
    (bucket : Bucket) (rest : List Bucket)
    (hlist : ft.listBuckets = none) (hbuckets : w.buckets = bucket :: rest) :
    (LocalBackup.Remove env ft w b).1 = .returned none := by
  unfold LocalBackup.Remove
  simp only [hlist, World.record, hbuckets]

/-- The amended C5 on an identifier with no remote object, where the delete
call returns the store's absence error. -/
theorem Remove_returns_nil_witness :
    (objectDelete envAbsentByError noFaults { Name := "main", objects := [] }
        "missing-id.tar.gz").2 = some (.other "b2: object not found") ∧
    (LocalBackup.Remove envAbsentByError noFaults emptyBucketWorld
        (NewLocal "missing-id" "")).1 = .returned none :=
  ⟨rfl, Remove_returns_nil envAbsentByError noFaults emptyBucketWorld
    (NewLocal "missing-id" "") { Name := "main", objects := [] } [] rfl rfl⟩

/-- C4, as stated, fails, in two ways. When the delete call fails, `Remove`
still returns nil, the object stays, and `LocateLocal` then returns its
attributes without error. When the delete succeeds and the store reports
absence by an error, `LocateLocal` returns that error, not `os.ErrNotExist`. -/
theorem Remove_then_Locate_counterexample :
    (LocalBackup.Remove envAbsentByNil deleteFault storedWorld (NewLocal "abc123" "")).1
      = .returned none ∧
    (LocateLocal envAbsentByNil noFaults
        (LocalBackup.Remove envAbsentByNil deleteFault storedWorld (NewLocal "abc123" "")).2
        "abc123").1
      = .returned (some (NewLocal "abc123" ""),
          some { Name := "abc123.tar.gz", Size := 42 }, none) ∧
    (LocalBackup.Remove envAbsentByError noFaults storedWorld (NewLocal "abc123" "")).1
      = .returned none ∧
    (LocateLocal envAbsentByError noFaults
        (LocalBackup.Remove envAbsentByError noFaults storedWorld (NewLocal "abc123" "")).2
        "abc123").1
      = .returned (none, none, some (.other "b2: object not found")) := by
  refine ⟨rfl, ?_, rfl, ?_⟩ <;> decide

/-- C4, amended: for every state of the first bucket (object present or
absent), when in both calls bucket listing succeeds, the account has at least
one bucket, the delete call of `Remove` does not fail for a reason other than
absence and the lookup of `LocateLocal` does not fail for such a reason, then
`Remove` returns nil and `LocateLocal` afterwards returns no backup, no
attributes, and as error `os.ErrNotExist` if the store reports absence by nil
attributes, else the error by which the store reports absence. -/
theorem Remove_then_Locate (env : Env) (ft ft' : Faults) (w : World) (b : LocalBackup)
    (bucket : Bucket) (rest : List Bucket)
    (hlist : ft.listBuckets = none) (hdelete : ft.delete = none)
    (hbuckets : w.buckets = bucket :: rest)
    (hlist' : ft'.listBuckets = none) (hattrs' : ft'.attrs = none) :
    (LocalBackup.Remove env ft w b).1 = .returned none ∧
    (LocateLocal env ft' (LocalBackup.Remove env ft w b).2 b.Backup.Uuid).1
      = .returned (none, none, some (env.absentErr.getD .ErrNotExist)) := by
  have hrem : LocalBackup.Remove env ft w b
      = (.returned none,
          { World.record (World.record w .listBuckets)
              (.objectDelete (b.Backup.Uuid ++ ".tar.gz")) with
            buckets := (objectDelete env ft bucket (b.Backup.Uuid ++ ".tar.gz")).1 :: rest }) := by
    unfold LocalBackup.Remove
    simp only [hlist, World.record, hbuckets]
  rw [hrem]
  refine ⟨rfl, ?_⟩
  exact LocateLocal_absent_aux env ft' _ _ _ rest hlist' rfl hattrs'
    (objectDelete_lookup env ft bucket _ hdelete)

/-- The amended C4 on a bucket that holds the object, in a store that reports
absence by nil attributes: the error is `os.ErrNotExist`. -/
theorem Remove_then_Locate_witness :
    (LocalBackup.Remove envAbsentByNil noFaults storedWorld (NewLocal "abc123" "")).1
      = .returned none ∧
    (LocateLocal envAbsentByNil noFaults
        (LocalBackup.Remove envAbsentByNil noFaults storedWorld (NewLocal "abc123" "")).2
        "abc123").1
      = .returned (none, none, some .ErrNotExist) :=
  Remove_then_Locate envAbsentByNil noFaults noFaults storedWorld (NewLocal "abc123" "")
    { Name := "main",
      objects := [("abc123.tar.gz", { Name := "abc123.tar.gz", Size := 42 })] } []
    rfl rfl rfl rfl rfl

/-! ## The index `buckets[0]` -/

theorem Generate_fst (env : Env) (ft : Faults) (w : World) (b : LocalBackup)
    (basePath ignore : String) :
    (LocalBackup.Generate env ft w b basePath ignore).1
      = (generateBody env ft w b basePath ignore).1 := by
  unfold LocalBackup.Generate
  rfl

theorem Generate_snd (env : Env) (ft : Faults) (w : World) (b : LocalBackup)
    (basePath ignore : String) :
    (LocalBackup.Generate env ft w b basePath ignore).2
      = (osRemove ft (generateBody env ft w b basePath ignore).2 (env.Path b.Backup)).2 := by
  unfold LocalBackup.Generate
  rfl

theorem osRemove_buckets (ft : Faults) (w : World) (path : String) :
    (osRemove ft w path).2.buckets = w.buckets := by
  unfold osRemove
  simp only [World.record]
  split
  · rfl
  · split <;> rfl

theorem generateBody_panics_iff (env : Env) (ft : Faults) (w : World) (b : LocalBackup)
    (basePath ignore : String) :
    (generateBody env ft w b basePath ignore).1 = .indexOutOfRange
      ↔ ft.listBuckets = none ∧ w.buckets = [] := by
  unfold generateBody
  cases hl : ft.listBuckets with
  | some err => simp
  | none =>
    cases hb : w.buckets with
    | nil => simp [World.record, hb]
    | cons bucket rest =>
      simp only [World.record, hb]
      split
      · simp
      · split
        · simp
        · split <;> simp

theorem generateBody_first_bucket (env : Env) (ft : Faults) (w : World) (b : LocalBackup)
    (basePath ignore : String) (bucket : Bucket) (rest : List Bucket)
    (hbuckets : w.buckets = bucket :: rest) :
    (generateBody env ft w b basePath ignore).1
      = (generateBody env ft { w with buckets := [bucket] } b basePath ignore).1 ∧
    (generateBody env ft w b basePath ignore).2.buckets
      = (generateBody env ft { w with buckets := [bucket] } b basePath ignore).2.buckets
          ++ rest := by
  unfold generateBody archiveCreate LocalBackup.copyFile osOpen
  simp only [World.record, World.writeFile, hbuckets]
  cases ft.listBuckets with
  | some err => simp
  | none =>
    cases ft.create with
    | some err => cases ft.createLeavesFile <;> simp
    | none =>
      simp only [List.lookup, beq_self_eq_true]
      cases ft.osOpen with
      | some err => simp
      | none =>
        cases ft.ioCopy with
        | some err => simp
        | none =>
          cases ft.writerClose with
          | some err => simp
          | none => cases ft.details <;> simp

/-- C10: each of `LocateLocal`, `Remove` and `Generate` ends in the
out-of-range outcome of `buckets[0]`, returning no value and so no error,
exactly when bucket listing succeeds with an empty list. When listing succeeds
with a non-empty list the first bucket is the one used: outcome and first
bucket afterwards are those of the account that has this bucket alone, and the
other buckets are left as they were. -/
theorem buckets_index_zero (env : Env) (ft : Faults) (w : World) (b : LocalBackup)
    (basePath ignore : String) :
    ((LocateLocal env ft w b.Backup.Uuid).1 = .indexOutOfRange
      ↔ ft.listBuckets = none ∧ w.buckets = []) ∧
    ((LocalBackup.Remove env ft w b).1 = .indexOutOfRange
      ↔ ft.listBuckets = none ∧ w.buckets = []) ∧
    ((LocalBackup.Generate env ft w b basePath ignore).1 = .indexOutOfRange
      ↔ ft.listBuckets = none ∧ w.buckets = []) ∧
    (∀ bucket rest, ft.listBuckets = none → w.buckets = bucket :: rest →
      (LocateLocal env ft w b.Backup.Uuid).1
        = (LocateLocal env ft { w with buckets := [bucket] } b.Backup.Uuid).1 ∧
      (LocateLocal env ft w b.Backup.Uuid).2.buckets = bucket :: rest ∧
      (LocalBackup.Remove env ft w b).1
        = (LocalBackup.Remove env ft { w with buckets := [bucket] } b).1 ∧
      (LocalBackup.Remove env ft w b).2.buckets
        = (LocalBackup.Remove env ft { w with buckets := [bucket] } b).2.buckets ++ rest ∧
      (LocalBackup.Generate env ft w b basePath ignore).1
        = (LocalBackup.Generate env ft { w with buckets := [bucket] } b basePath ignore).1 ∧
      (LocalBackup.Generate env ft w b basePath ignore).2.buckets
        = (LocalBackup.Generate env ft { w with buckets := [bucket] } b basePath ignore).2.buckets
            ++ rest) := by
  refine ⟨?_, ?_, ?_, ?_⟩
  · unfold LocateLocal
    cases hl : ft.listBuckets with
    | some err => simp
    | none =>
      cases hb : w.buckets with
      | nil => simp [World.record, hb]
      | cons bucket rest =>
        simp only [World.record, hb]
        split <;> simp
  · unfold LocalBackup.Remove
    cases hl : ft.listBuckets with
    | some err => simp
    | none =>
      cases hb : w.buckets with
      | nil => simp [World.record, hb]
      | cons bucket rest => simp [World.record, hb]
  · rw [Generate_fst]
    exact generateBody_panics_iff env ft w b basePath ignore
  · intro bucket rest hl hb
    refine ⟨?_, ?_, ?_, ?_, ?_, ?_⟩
    · unfold LocateLocal
      simp only [hl, World.record, hb]
      split <;> rfl
    · unfold LocateLocal
      simp only [hl, World.record, hb]
      split <;> rfl
    · unfold LocalBackup.Remove
      simp only [hl, World.record, hb]
    · unfold LocalBackup.Remove
      simp only [hl, World.record, hb, List.cons_append, List.nil_append]
    · rw [Generate_fst, Generate_fst]
      exact (generateBody_first_bucket env ft w b basePath ignore bucket rest hb).1
    · rw [Generate_snd, Generate_snd, osRemove_buckets, osRemove_buckets]
      exact (generateBody_first_bucket env ft w b basePath ignore bucket rest hb).2

/-- C10 at an account without buckets and at one with two buckets: with no
bucket all three calls end in the out-of-range outcome; with two buckets
`Generate` stores the object in the first and leaves the second as it was. -/
theorem buckets_index_zero_witness :
    (LocateLocal envAbsentByNil noFaults noBucketWorld "abc123").1 = .indexOutOfRange ∧
    (LocalBackup.Remove envAbsentByNil noFaults noBucketWorld (NewLocal "abc123" "")).1
      = .indexOutOfRange ∧
    (LocalBackup.Generate envAbsentByNil noFaults noBucketWorld (NewLocal "abc123" "")
        "/srv/data" "*.log").1 = .indexOutOfRange ∧
    (LocalBackup.Generate envAbsentByNil noFaults twoBucketWorld (NewLocal "abc123" "")
        "/srv/data" "*.log").2.buckets
      = [{ Name := "main",
           objects := [("abc123.tar.gz", { Name := "abc123.tar.gz", Size := 42 })] },
         { Name := "spare",
           objects := [("abc123.tar.gz", { Name := "abc123.tar.gz", Size := 42 })] }] := by
  have h := buckets_index_zero envAbsentByNil noFaults noBucketWorld (NewLocal "abc123" "")
    "/srv/data" "*.log"
  have h2 := (buckets_index_zero envAbsentByNil noFaults twoBucketWorld (NewLocal "abc123" "")
    "/srv/data" "*.log").2.2.2 { Name := "main", objects := [] }
    [{ Name := "spare",
       objects := [("abc123.tar.gz", { Name := "abc123.tar.gz", Size := 42 })] }] rfl rfl
  refine ⟨h.1.2 ⟨rfl, rfl⟩, h.2.1.2 ⟨rfl, rfl⟩, h.2.2.1.2 ⟨rfl, rfl⟩, ?_⟩
  rw [h2.2.2.2.2.2]
  decide

/-! ## `Generate`: the local archive -/

theorem osRemove_not_exists (ft : Faults) (w : World) (path : String)
    (hremove : ft.osRemove = none) : ¬ (osRemove ft w path).2.fileExists path := by
  unfold osRemove World.fileExists
  simp only [World.record, hremove]
  cases hl : w.files.lookup path with
  | none =>
    simp only [List.mem_map, not_exists, not_and]
    intro p hp hpath
    rw [List.lookup_eq_none_iff] at hl
    have := hl p hp
    simp [hpath] at this
  | some size =>
    simp only [List.mem_map, List.mem_filter, not_exists, not_and]
    intro p hp hpath
    simp [hpath] at hp

/-- C2: whatever the outcome of the stages of `Generate` (bucket listing fails,
the bucket list is empty, archive creation fails, the upload fails, the detail
lookup fails, or all succeed), the local archive path `b.Path()` does not
exist afterwards, provided `os.Remove` itself does not fail. -/
theorem Generate_removes_local_archive (env : Env) (ft : Faults) (w : World)
    (b : LocalBackup) (basePath ignore : String) (hremove : ft.osRemove = none) :
    ¬ (LocalBackup.Generate env ft w b basePath ignore).2.fileExists (env.Path b.Backup) := by
  rw [Generate_snd]
  exact osRemove_not_exists ft _ _ hremove

/-- C2 at a run where every stage succeeds: the archive is created at the
local path by the builder, and the path is gone when `Generate` is over. -/
theorem Generate_removes_local_archive_witness :
    (archiveCreate noFaults (emptyBucketWorld.record .listBuckets) "/srv/data" "*.log"
        "/var/lib/backups/abc123.tar.gz").2.fileExists "/var/lib/backups/abc123.tar.gz" ∧
    (LocalBackup.Generate envAbsentByNil noFaults emptyBucketWorld (NewLocal "abc123" "")
        "/srv/data" "*.log").1
      = .returned (some { Checksum := "da39a3", ChecksumType := "sha1", Size := 42 }, none) ∧
    ¬ (LocalBackup.Generate envAbsentByNil noFaults emptyBucketWorld (NewLocal "abc123" "")
        "/srv/data" "*.log").2.fileExists (envAbsentByNil.Path (NewLocal "abc123" "").Backup) :=
  ⟨by decide, by decide,
    Generate_removes_local_archive envAbsentByNil noFaults emptyBucketWorld
      (NewLocal "abc123" "") "/srv/data" "*.log" rfl⟩

/-! ## `Generate`, then `LocateLocal` -/

theorem generateBody_success (env : Env) (ft : Faults) (w : World) (b : LocalBackup)
    (basePath ignore : String) (res : Option ArchiveDetails)
    (hgen : (generateBody env ft w b basePath ignore).1 = .returned (res, none)) :
    ∃ bucket rest, w.buckets = bucket :: rest ∧
      (generateBody env ft w b basePath ignore).2.buckets
        = bucket.put (b.Backup.Uuid ++ ".tar.gz") ft.archiveSize :: rest := by
  revert hgen
  unfold generateBody archiveCreate LocalBackup.copyFile osOpen
  simp only [World.record, World.writeFile]
  cases ft.listBuckets with
  | some err => simp
  | none =>
    cases w.buckets with
    | nil => simp
    | cons bucket rest =>
      cases ft.create with
      | some err => cases ft.createLeavesFile <;> simp
      | none =>
        simp only [List.lookup, beq_self_eq_true]
        cases ft.osOpen with
        | some err => simp
        | none =>
          cases ft.ioCopy with
          | some err => simp
          | none =>
            cases ft.writerClose with
            | some err => simp
            | none => cases ft.details <;> simp

theorem LocateLocal_present (env : Env) (ft : Faults) (w : World) (uuid : String)
    (bucket : Bucket) (rest : List Bucket) (attrs : Attrs)
    (hlist : ft.listBuckets = none) (hbuckets : w.buckets = bucket :: rest)
    (hattrs : ft.attrs = none) (hpresent : bucket.lookup (uuid ++ ".tar.gz") = some attrs) :
    (LocateLocal env ft w uuid).1 = .returned (some (NewLocal uuid ""), some attrs, none) := by
  unfold LocateLocal
  simp only [hlist, World.record, hbuckets, NewLocal, objectAttrs, hattrs, hpresent]

/-- C3: in the store where a completed write makes the attributes of the
object retrievable under its key, after `Generate` on a record with identifier
`b.Uuid` returns without error, a `LocateLocal` of that identifier whose
bucket listing and lookup do not fail returns the record, a nil error, and
attributes whose name is `b.Uuid + ".tar.gz"`. -/
theorem Generate_then_Locate (env : Env) (ft ft' : Faults) (w : World) (b : LocalBackup)
    (basePath ignore : String) (res : Option ArchiveDetails)
    (hgen : (LocalBackup.Generate env ft w b basePath ignore).1 = .returned (res, none))
    (hlist' : ft'.listBuckets = none) (hattrs' : ft'.attrs = none) :
    ∃ attrs : Attrs,
      (LocateLocal env ft' (LocalBackup.Generate env ft w b basePath ignore).2
          b.Backup.Uuid).1
        = .returned (some (NewLocal b.Backup.Uuid ""), some attrs, none) ∧
      attrs.Name = b.Backup.Uuid ++ ".tar.gz" := by
  rw [Generate_fst] at hgen
  obtain ⟨bucket, rest, _, hb⟩ := generateBody_success env ft w b basePath ignore res hgen
  refine ⟨{ Name := b.Backup.Uuid ++ ".tar.gz", Size := ft.archiveSize }, ?_, rfl⟩
  apply LocateLocal_present env ft' _ _
    (bucket.put (b.Backup.Uuid ++ ".tar.gz") ft.archiveSize) rest _ hlist' _ hattrs'
  · exact Bucket.lookup_put bucket _ _
  · rw [Generate_snd, osRemove_buckets]
    exact hb

/-- C3 at the identifier `abc123`, on a bucket that is empty beforehand:
`Generate` returns without error and `LocateLocal` then returns attributes
named `abc123.tar.gz`. -/
theorem Generate_then_Locate_witness :
    (LocalBackup.Generate envAbsentByNil noFaults emptyBucketWorld (NewLocal "abc123" "")
        "/srv/data" "*.log").1
      = .returned (some { Checksum := "da39a3", ChecksumType := "sha1", Size := 42 }, none) ∧
    ∃ attrs : Attrs,
      (LocateLocal envAbsentByNil noFaults
          (LocalBackup.Generate envAbsentByNil noFaults emptyBucketWorld (NewLocal "abc123" "")
            "/srv/data" "*.log").2 "abc123").1
        = .returned (some (NewLocal "abc123" ""), some attrs, none) ∧
      attrs.Name = "abc123" ++ ".tar.gz" :=
  ⟨by decide,
    Generate_then_Locate envAbsentByNil noFaults noFaults emptyBucketWorld
      (NewLocal "abc123" "") "/srv/data" "*.log"
      (some { Checksum := "da39a3", ChecksumType := "sha1", Size := 42 })
      (by decide) rfl rfl⟩

/-! ## `Generate`: the first failing stage -/

theorem containsText_wrap (err : GoError) (front sub back : String) :
    containsText (GoError.wrap err (front ++ sub ++ back)).Error sub := by
  unfold containsText GoError.Error
  refine ⟨front.data, back.data ++ ": ".data ++ err.Error.data, ?_⟩
  simp [String.data_append]

theorem osRemove_events (ft : Faults) (w : World) (path : String) :
    (osRemove ft w path).2.events = w.events ++ [.osRemove path] := by
  unfold osRemove
  simp only [World.record]
  split
  · rfl
  · split <;> rfl

theorem generateBody_upload_failure (env : Env) (ft : Faults) (w : World) (b : LocalBackup)
    (basePath ignore : String) (bucket : Bucket) (rest : List Bucket)
    (hlist : ft.listBuckets = none) (hbuckets : w.buckets = bucket :: rest)
    (hcreate : ft.create = none)
    (hupload : ft.osOpen ≠ none ∨ ft.ioCopy ≠ none ∨ ft.writerClose ≠ none) :
    ∃ err evs,
      (generateBody env ft w b basePath ignore).1
        = .returned (none, some (.wrap err "backup: could not upload archive to s3 JJ")) ∧
      (generateBody env ft w b basePath ignore).2.buckets = w.buckets ∧
      (generateBody env ft w b basePath ignore).2.events = w.events ++ evs ∧
      Event.details ∉ evs := by
  unfold generateBody archiveCreate LocalBackup.copyFile osOpen
  simp only [World.record, World.writeFile, hlist, hbuckets, hcreate, List.lookup,
    beq_self_eq_true, errorsWrap]
  cases ho : ft.osOpen with
  | some err =>
    exact ⟨err, [.listBuckets, .archiveCreate basePath ignore (env.Path b.Backup),
      .osOpen (env.Path b.Backup)], by simp⟩
  | none =>
    cases hc : ft.ioCopy with
    | some err =>
      exact ⟨err, [.listBuckets, .archiveCreate basePath ignore (env.Path b.Backup),
        .osOpen (env.Path b.Backup), .objectWrite (b.Backup.Uuid ++ ".tar.gz")], by simp⟩
    | none =>
      cases hw : ft.writerClose with
      | some err =>
        exact ⟨err, [.listBuckets, .archiveCreate basePath ignore (env.Path b.Backup),
          .osOpen (env.Path b.Backup), .objectWrite (b.Backup.Uuid ++ ".tar.gz")], by simp⟩
      | none => simp [ho, hc, hw] at hupload

/-- C9: in `Generate` the first failing stage aborts the later ones. If bucket
listing fails, the builder is not invoked, no object is written, and the
error wraps the listing error with a message that contains "could not list
buckets". If archive creation fails, no object is written and the error is
the builder's, unchanged. If the upload fails (at `os.Open`, at `io.Copy` or
at `Close`), the detail lookup is not performed and the message of the error
contains "could not upload archive". -/
theorem Generate_first_failure (env : Env) (ft : Faults) (w : World) (b : LocalBackup)
    (basePath ignore : String) :
    (∀ err, ft.listBuckets = some err →
      (LocalBackup.Generate env ft w b basePath ignore).1
        = .returned (none, some (.wrap err "backup: could not list buckets jj")) ∧
      containsText (GoError.wrap err "backup: could not list buckets jj").Error
        "could not list buckets" ∧
      (LocalBackup.Generate env ft w b basePath ignore).2.buckets = w.buckets ∧
      (LocalBackup.Generate env ft w b basePath ignore).2.events
        = w.events ++ [.listBuckets, .osRemove (env.Path b.Backup)]) ∧
    (∀ err bucket rest, ft.listBuckets = none → w.buckets = bucket :: rest →
      ft.create = some err →
      (LocalBackup.Generate env ft w b basePath ignore).1 = .returned (none, some err) ∧
      (LocalBackup.Generate env ft w b basePath ignore).2.buckets = w.buckets ∧
      (LocalBackup.Generate env ft w b basePath ignore).2.events
        = w.events ++ [.listBuckets, .archiveCreate basePath ignore (env.Path b.Backup),
            .osRemove (env.Path b.Backup)]) ∧
    (∀ bucket rest, ft.listBuckets = none → w.buckets = bucket :: rest →
      ft.create = none →
      ft.osOpen ≠ none ∨ ft.ioCopy ≠ none ∨ ft.writerClose ≠ none →
      ∃ err evs,
        (LocalBackup.Generate env ft w b basePath ignore).1
          = .returned (none, some (.wrap err "backup: could not upload archive to s3 JJ")) ∧
        containsText (GoError.wrap err "backup: could not upload archive to s3 JJ").Error
          "could not upload archive" ∧
        (LocalBackup.Generate env ft w b basePath ignore).2.buckets = w.buckets ∧
        (LocalBackup.Generate env ft w b basePath ignore).2.events = w.events ++ evs ∧
        Event.details ∉ evs) := by
  have hlistmsg : ∀ err : GoError,
      containsText (GoError.wrap err "backup: could not list buckets jj").Error
        "could not list buckets" :=
    fun err => containsText_wrap err "backup: " "could not list buckets" " jj"
  have huploadmsg : ∀ err : GoError,
      containsText (GoError.wrap err "backup: could not upload archive to s3 JJ").Error
        "could not upload archive" :=
    fun err => containsText_wrap err "backup: " "could not upload archive" " to s3 JJ"
  refine ⟨?_, ?_, ?_⟩
  · intro err hl
    refine ⟨?_, hlistmsg err, ?_, ?_⟩
    · rw [Generate_fst]; unfold generateBody; simp only [hl, errorsWrap]
    · rw [Generate_snd, osRemove_buckets]; unfold generateBody; simp only [hl, World.record]
    · rw [Generate_snd]; unfold generateBody osRemove
      simp only [hl, World.record]
      split
      · simp
      · split <;> simp
  · intro err bucket rest hl hb hc
    refine ⟨?_, ?_, ?_⟩
    · rw [Generate_fst]; unfold generateBody archiveCreate
      simp only [hl, World.record, hb, hc]
    · rw [Generate_snd, osRemove_buckets]; unfold generateBody archiveCreate
      simp only [hl, World.record, hb, hc]
      split <;> simp [World.writeFile]
    · rw [Generate_snd]; unfold generateBody archiveCreate osRemove
      simp only [hl, World.record, hb, hc, World.writeFile]
      cases ft.createLeavesFile <;> simp only [Bool.false_eq_true, if_false, if_true] <;>
        split <;> try split
      all_goals simp
  · intro bucket rest hl hb hc hup
    obtain ⟨err, evs, h1, h2, h3, h4⟩ :=
      generateBody_upload_failure env ft w b basePath ignore bucket rest hl hb hc hup
    refine ⟨err, evs ++ [.osRemove (env.Path b.Backup)], ?_, huploadmsg err, ?_, ?_, ?_⟩
    · rw [Generate_fst]; exact h1
    · rw [Generate_snd, osRemove_buckets]; exact h2
    · rw [Generate_snd, osRemove_events, h3, List.append_assoc]
    · simpa using h4

/-- C9 at three runs on the identifier `abc123`: bucket listing fails, the
builder fails, the copy of the upload fails. -/
theorem Generate_first_failure_witness :
    ((LocalBackup.Generate envAbsentByNil listFault emptyBucketWorld (NewLocal "abc123" "")
        "/srv/data" "*.log").1
      = .returned (none,
          some (.wrap (.other "b2: unauthorized") "backup: could not list buckets jj")) ∧
      (GoError.wrap (.other "b2: unauthorized") "backup: could not list buckets jj").Error
        = "backup: could not list buckets jj: b2: unauthorized") ∧
    ((LocalBackup.Generate envAbsentByNil createFault emptyBucketWorld (NewLocal "abc123" "")
        "/srv/data" "*.log").1
      = .returned (none, some (.other "archive: permission denied")) ∧
      (LocalBackup.Generate envAbsentByNil createFault emptyBucketWorld (NewLocal "abc123" "")
        "/srv/data" "*.log").2.buckets = emptyBucketWorld.buckets) ∧
    (∃ err evs,
      (LocalBackup.Generate envAbsentByNil copyFault emptyBucketWorld (NewLocal "abc123" "")
          "/srv/data" "*.log").1
        = .returned (none, some (.wrap err "backup: could not upload archive to s3 JJ")) ∧
      containsText (GoError.wrap err "backup: could not upload archive to s3 JJ").Error
        "could not upload archive" ∧
      (LocalBackup.Generate envAbsentByNil copyFault emptyBucketWorld (NewLocal "abc123" "")
          "/srv/data" "*.log").2.buckets = emptyBucketWorld.buckets ∧
      (LocalBackup.Generate envAbsentByNil copyFault emptyBucketWorld (NewLocal "abc123" "")
          "/srv/data" "*.log").2.events = emptyBucketWorld.events ++ evs ∧
      Event.details ∉ evs) := by
  have ha := (Generate_first_failure envAbsentByNil listFault emptyBucketWorld
    (NewLocal "abc123" "") "/srv/data" "*.log").1 (.other "b2: unauthorized") rfl
  have hb := (Generate_first_failure envAbsentByNil createFault emptyBucketWorld
    (NewLocal "abc123" "") "/srv/data" "*.log").2.1 (.other "archive: permission denied")
    { Name := "main", objects := [] } [] rfl rfl rfl
  have hc := (Generate_first_failure envAbsentByNil copyFault emptyBucketWorld
    (NewLocal "abc123" "") "/srv/data" "*.log").2.2
    { Name := "main", objects := [] } [] rfl rfl rfl (Or.inr (Or.inl (by decide)))
  exact ⟨⟨ha.1, by decide⟩, ⟨hb.1, hb.2.1⟩, hc⟩

/-! ## `Restore` -/

theorem fileCalls_cons_dir (extractName : ArchiveFile → String) (f : ArchiveFile)
    (rest : List ArchiveFile) (hdir : f.IsDir = true) :
    fileCalls extractName (f :: rest) = fileCalls extractName rest := by
  simp [fileCalls, hdir]

theorem fileCalls_cons_file (extractName : ArchiveFile → String) (f : ArchiveFile)
    (rest : List ArchiveFile) (hdir : f.IsDir = false) :
    fileCalls extractName (f :: rest) = (extractName f, f) :: fileCalls extractName rest := by
  simp [fileCalls, hdir]

/-- A walk over `pre ++ tail`, with a context that is not cancelled and a
callback that returns nil on the entries of `pre`, reaches `tail` after having
invoked the callback on each file of `pre`. -/
theorem archiverWalk_prefix {σ : Type} (extractName : ArchiveFile → String)
    (done : Nat → Bool) (callback : RestoreCallback σ) (pre tail : List ArchiveFile)
    (hdone : ∀ k, done k = false)
    (hcb : ∀ s g, g ∈ pre → g.IsDir = false → (callback s (extractName g) g).2 = none)
    (st : WalkState σ) :
    ∃ st' : WalkState σ,
      archiverWalk (restoreVisitor extractName done callback) (pre ++ tail) st
        = archiverWalk (restoreVisitor extractName done callback) tail st' ∧
      st'.calls = st.calls ++ fileCalls extractName pre := by
  induction pre generalizing st with
  | nil => exact ⟨st, rfl, by simp [fileCalls]⟩
  | cons f rest ih =>
    have hrest : ∀ s g, g ∈ rest → g.IsDir = false → (callback s (extractName g) g).2 = none :=
      fun s g hg => hcb s g (List.mem_cons_of_mem f hg)
    cases hdir : f.IsDir with
    | true =>
      obtain ⟨st', h1, h2⟩ := ih hrest { st with visited := st.visited + 1 }
      refine ⟨st', ?_, ?_⟩
      · rw [← h1]
        simp [archiverWalk, restoreVisitor, hdone, hdir]
      · rw [h2, fileCalls_cons_dir extractName f rest hdir]
    | false =>
      have hf := hcb st.cb f (List.mem_cons_self f rest) hdir
      obtain ⟨st', h1, h2⟩ := ih hrest
        { cb := (callback st.cb (extractName f) f).1, visited := st.visited + 1,
          calls := st.calls ++ [(extractName f, f)] }
      refine ⟨st', ?_, ?_⟩
      · rw [← h1]
        simp only [List.cons_append, archiverWalk, restoreVisitor, hdone, hdir,
          Bool.false_eq_true, if_false]
        rcases hc : callback st.cb (extractName f) f with ⟨c, e⟩
        rw [hc] at hf
        simp only at hf
        subst hf
        rfl
      · rw [h2, fileCalls_cons_file extractName f rest hdir]
        simp

/-- C6: with a context that is never cancelled and a callback that never
returns an error, `Restore` invokes the callback exactly once for each entry
that is not a directory, in archive order, with the extracted name of the
entry, and never for a directory: the invocations are `fileCalls` of the
entries, as many as there are entries that are not directories, and `Restore`
returns nil. -/
theorem Restore_calls_files {σ : Type} (extractName : ArchiveFile → String)
    (done : Nat → Bool) (entries : List ArchiveFile) (callback : RestoreCallback σ) (s : σ)
    (hdone : ∀ k, done k = false)
    (hcb : ∀ c name f, (callback c name f).2 = none) :
    (LocalBackup.Restore extractName done (.ok entries) callback s).2 = none ∧
    (LocalBackup.Restore extractName done (.ok entries) callback s).1.calls
      = (entries.filter (fun f => !f.IsDir)).map (fun f => (extractName f, f)) ∧
    (LocalBackup.Restore extractName done (.ok entries) callback s).1.calls.length
      = (entries.filter (fun f => !f.IsDir)).length := by
  obtain ⟨st', h1, h2⟩ := archiverWalk_prefix extractName done callback entries [] hdone
    (fun c g _ _ => hcb c (extractName g) g) { cb := s, visited := 0, calls := [] }
  have hres : LocalBackup.Restore extractName done (.ok entries) callback s = (st', none) := by
    unfold LocalBackup.Restore
    simp only
    rw [List.append_nil] at h1
    rw [h1]
    rfl
  rw [hres]
  simp only [List.nil_append] at h2
  refine ⟨rfl, ?_, ?_⟩
  · exact h2
  · simp only [h2, fileCalls, List.length_map]

/-- C6 at the archive `a.txt`, `dir/`, `dir/b.txt`: exactly two invocations,
named `a.txt` and `dir/b.txt`. -/
theorem Restore_calls_files_witness :
    (LocalBackup.Restore headerName neverDone (.ok exampleArchive) countingCallback 0).2 = none ∧
    (LocalBackup.Restore headerName neverDone (.ok exampleArchive) countingCallback 0).1.calls.map
        Prod.fst = ["a.txt", "dir/b.txt"] ∧
    (LocalBackup.Restore headerName neverDone (.ok exampleArchive) countingCallback 0).1.calls.length
      = 2 ∧
    (LocalBackup.Restore headerName neverDone (.ok exampleArchive) countingCallback 0).1.cb = 2 := by
  have h := Restore_calls_files headerName neverDone exampleArchive countingCallback 0
    (fun _ => rfl) (fun _ _ _ => rfl)
  refine ⟨h.1, ?_, ?_, ?_⟩
  · rw [h.2.1]; decide
  · rw [h.2.2]; decide
  · decide

/-- C7, as stated, fails: on the archive `a.txt`, `dir/`, `dir/b.txt` a
`Restore` whose context is cancelled before the first entry invokes the
callback zero times and returns nil, the very outcome of the `Restore` that
visits all entries. -/
theorem Restore_cancelled_counterexample :
    alreadyDone 0 = true ∧
    (LocalBackup.Restore headerName alreadyDone (.ok exampleArchive) countingCallback 0).1.calls
      = [] ∧
    (LocalBackup.Restore headerName alreadyDone (.ok exampleArchive) countingCallback 0).2
      = none ∧
    (LocalBackup.Restore headerName neverDone (.ok exampleArchive) countingCallback 0).1.visited
      = 3 ∧
    (LocalBackup.Restore headerName neverDone (.ok exampleArchive) countingCallback 0).2
      = (LocalBackup.Restore headerName alreadyDone (.ok exampleArchive) countingCallback 0).2 := by
  refine ⟨rfl, ?_, ?_, ?_, ?_⟩ <;> decide

/-- C7, amended: when `Restore` is called with a context that is already
cancelled before the first entry, the callback is invoked zero times, its
state is untouched, and `Restore` returns nil: the visitor returns the stop
sentinel of the walk, which ends the walk without error, so the outcome is the
nil error that a walk over all entries returns too. -/
theorem Restore_cancelled {σ : Type} (extractName : ArchiveFile → String)
    (done : Nat → Bool) (entries : List ArchiveFile) (callback : RestoreCallback σ) (s : σ)
    (hdone : done 0 = true) :
    (LocalBackup.Restore extractName done (.ok entries) callback s).1.calls = [] ∧
    (LocalBackup.Restore extractName done (.ok entries) callback s).1.cb = s ∧
    (LocalBackup.Restore extractName done (.ok entries) callback s).2 = none := by
  unfold LocalBackup.Restore
  cases entries with
  | nil => exact ⟨rfl, rfl, rfl⟩
  | cons f rest => simp [archiverWalk, restoreVisitor, hdone]

/-- The amended C7 at the archive `a.txt`, `dir/`, `dir/b.txt`. -/
theorem Restore_cancelled_witness :
    (LocalBackup.Restore headerName alreadyDone (.ok exampleArchive) countingCallback 0).1.calls
      = [] ∧
    (LocalBackup.Restore headerName alreadyDone (.ok exampleArchive) countingCallback 0).1.cb
      = 0 ∧
    (LocalBackup.Restore headerName alreadyDone (.ok exampleArchive) countingCallback 0).2
      = none :=
  Restore_cancelled headerName alreadyDone exampleArchive countingCallback 0 rfl

/-- A walk over `pre ++ tail`, with a context that is not cancelled and a
callback each of whose invocations on `pre` returns nil in the state it is
invoked in, reaches `tail` after having invoked the callback on each file of
`pre`. -/
theorem archiverWalk_run_prefix {σ : Type} (extractName : ArchiveFile → String)
    (done : Nat → Bool) (callback : RestoreCallback σ) (pre tail : List ArchiveFile)
    (hdone : ∀ k, done k = false) (st : WalkState σ)
    (hrun : ∀ p g q, pre = p ++ g :: q → g.IsDir = false →
      (callback (callbackState extractName callback p st.cb) (extractName g) g).2 = none) :
    ∃ st' : WalkState σ,
      archiverWalk (restoreVisitor extractName done callback) (pre ++ tail) st
        = archiverWalk (restoreVisitor extractName done callback) tail st' ∧
      st'.calls = st.calls ++ fileCalls extractName pre ∧
      st'.cb = callbackState extractName callback pre st.cb ∧
      st'.visited = st.visited + pre.length := by
  induction pre generalizing st with
  | nil => exact ⟨st, rfl, by simp [fileCalls], rfl, rfl⟩
  | cons f rest ih =>
    cases hdir : f.IsDir with
    | true =>
      obtain ⟨st', h1, h2, h3, h4⟩ := ih { st with visited := st.visited + 1 }
        (fun p g q hsplit hg => by
          have h := hrun (f :: p) g q (by rw [hsplit]; rfl) hg
          simpa [callbackState, hdir] using h)
      refine ⟨st', ?_, ?_, ?_, ?_⟩
      · rw [← h1]
        simp [archiverWalk, restoreVisitor, hdone, hdir]
      · rw [h2, fileCalls_cons_dir extractName f rest hdir]
      · rw [h3]; simp [callbackState, hdir]
      · rw [h4]; simp only [List.length_cons]; omega
    | false =>
      have hf := hrun [] f rest rfl hdir
      simp only [callbackState] at hf
      obtain ⟨st', h1, h2, h3, h4⟩ := ih
        { cb := (callback st.cb (extractName f) f).1, visited := st.visited + 1,
          calls := st.calls ++ [(extractName f, f)] }
        (fun p g q hsplit hg => by
          have h := hrun (f :: p) g q (by rw [hsplit]; rfl) hg
          simpa [callbackState, hdir] using h)
      refine ⟨st', ?_, ?_, ?_, ?_⟩
      · rw [← h1]
        simp only [List.cons_append, archiverWalk, restoreVisitor, hdone, hdir,
          Bool.false_eq_true, if_false]
        rcases hc : callback st.cb (extractName f) f with ⟨c, e⟩
        rw [hc] at hf
        simp only at hf
        subst hf
        rfl
      · rw [h2, fileCalls_cons_file extractName f rest hdir]
        simp
      · rw [h3]; simp [callbackState, hdir]
      · rw [h4]; simp only [List.length_cons]; omega

/-- The converse of the run hypotheses: under a context that is never
cancelled, whenever a walk returns an error, the entries split into files on
which the callback returned nil, then a file on which it returned an error
other than the stop sentinel, and the error of the walk is `walkError` of that
file and that error. -/
theorem archiverWalk_error_split {σ : Type} (extractName : ArchiveFile → String)
    (done : Nat → Bool) (callback : RestoreCallback σ) (entries : List ArchiveFile)
    (hdone : ∀ k, done k = false) (st : WalkState σ) (e : GoError)
    (herr : (archiverWalk (restoreVisitor extractName done callback) entries st).2 = some e) :
    ∃ pre f post err, entries = pre ++ f :: post ∧ f.IsDir = false ∧
      (∀ p g q, pre = p ++ g :: q → g.IsDir = false →
        (callback (callbackState extractName callback p st.cb) (extractName g) g).2 = none) ∧
      (callback (callbackState extractName callback pre st.cb) (extractName f) f).2 = some err ∧
      err ≠ .ErrStopWalk ∧ e = walkError f err := by
  induction entries generalizing st with
  | nil => simp [archiverWalk] at herr
  | cons g rest ih =>
    cases hdir : g.IsDir with
    | true =>
      have hstep : archiverWalk (restoreVisitor extractName done callback) (g :: rest) st
          = archiverWalk (restoreVisitor extractName done callback) rest
              { st with visited := st.visited + 1 } := by
        simp [archiverWalk, restoreVisitor, hdone, hdir]
      rw [hstep] at herr
      obtain ⟨pre, f, post, err, h1, h2, h3, h4, h5, h6⟩ := ih _ herr
      refine ⟨g :: pre, f, post, err, by rw [h1]; rfl, h2, ?_, ?_, h5, h6⟩
      · intro p x q hsplit hx
        rcases p with _ | ⟨y, p⟩
        · simp only [List.nil_append, List.cons.injEq] at hsplit
          obtain ⟨rfl, -⟩ := hsplit
          rw [hdir] at hx
          exact absurd hx (by decide)
        · simp only [List.cons_append, List.cons.injEq] at hsplit
          obtain ⟨rfl, hsplit⟩ := hsplit
          have := h3 p x q hsplit hx
          simpa [callbackState, hdir] using this
      · simpa [callbackState, hdir] using h4
    | false =>
      rcases hc : callback st.cb (extractName g) g with ⟨c, r⟩
      cases r with
      | none =>
        have hstep : archiverWalk (restoreVisitor extractName done callback) (g :: rest) st
            = archiverWalk (restoreVisitor extractName done callback) rest
                { cb := c, visited := st.visited + 1,
                  calls := st.calls ++ [(extractName g, g)] } := by
          simp [archiverWalk, restoreVisitor, hdone, hdir, hc]
        rw [hstep] at herr
        obtain ⟨pre, f, post, err, h1, h2, h3, h4, h5, h6⟩ := ih _ herr
        refine ⟨g :: pre, f, post, err, by rw [h1]; rfl, h2, ?_, ?_, h5, h6⟩
        · intro p x q hsplit hx
          rcases p with _ | ⟨y, p⟩
          · simp only [List.nil_append, List.cons.injEq] at hsplit
            obtain ⟨rfl, -⟩ := hsplit
            simp [callbackState, hc]
          · simp only [List.cons_append, List.cons.injEq] at hsplit
            obtain ⟨rfl, hsplit⟩ := hsplit
            have := h3 p x q hsplit hx
            simpa [callbackState, hdir, hc] using this
        · simpa [callbackState, hdir, hc] using h4
      | some err =>
        by_cases hstop : err = .ErrStopWalk
        · simp [archiverWalk, restoreVisitor, hdone, hdir, hc, hstop] at herr
        · refine ⟨[], g, rest, err, rfl, hdir, ?_, ?_, hstop, ?_⟩
          · intro p x q hsplit
            simp at hsplit
          · simp [callbackState, hc]
          · simp [archiverWalk, restoreVisitor, hdone, hdir, hc, hstop] at herr
            exact herr.symm

theorem walkError_carries (f : ArchiveFile) (err : GoError) :
    containsText (walkError f err).Error err.Error := by
  have hmsg : (walkError f err).Error = "walking " ++ f.Name ++ ": " ++ err.Error := rfl
  unfold containsText
  rw [hmsg]
  exact ⟨("walking " ++ f.Name ++ ": ").data, [], by simp [String.data_append]⟩

/-- C8: for every archive `pre ++ f :: post` and every callback, with or
without a state of its own, under a context that is never cancelled: if each
invocation of the callback on a file of `pre` returns nil in the state the walk
invokes it in, and its invocation on the file `f`, in the state reached after
`pre`, returns an error other than the stop sentinel of the walk, then
`Restore` returns a non-nil error that carries that error (the error of the
walk, whose message ends in the message of the callback's error), and the
callback has been invoked on the files of `pre` and on `f`, in order, and on no
entry of `post`: the walk has been given `pre.length + 1` entries. Every walk
that returns an error is of this form (`archiverWalk_error_split`). -/
theorem Restore_callback_error {σ : Type} (extractName : ArchiveFile → String)
    (done : Nat → Bool) (pre post : List ArchiveFile) (f : ArchiveFile)
    (callback : RestoreCallback σ) (s : σ) (err : GoError)
    (hdone : ∀ k, done k = false)
    (hfile : f.IsDir = false)
    (hpre : ∀ p g q, pre = p ++ g :: q → g.IsDir = false →
      (callback (callbackState extractName callback p s) (extractName g) g).2 = none)
    (hfail : (callback (callbackState extractName callback pre s) (extractName f) f).2
      = some err)
    (hstop : err ≠ .ErrStopWalk) :
    (LocalBackup.Restore extractName done (.ok (pre ++ f :: post)) callback s).2
      = some (walkError f err) ∧
    (LocalBackup.Restore extractName done (.ok (pre ++ f :: post)) callback s).2 ≠ none ∧
    containsText (walkError f err).Error err.Error ∧
    (LocalBackup.Restore extractName done (.ok (pre ++ f :: post)) callback s).1.calls
      = (pre.filter (fun g => !g.IsDir)).map (fun g => (extractName g, g))
          ++ [(extractName f, f)] ∧
    (LocalBackup.Restore extractName done (.ok (pre ++ f :: post)) callback s).1.visited
      = pre.length + 1 := by
  obtain ⟨st', h1, h2, h3, h4⟩ := archiverWalk_run_prefix extractName done callback pre
    (f :: post) hdone { cb := s, visited := 0, calls := [] } hpre
  have hres : LocalBackup.Restore extractName done (.ok (pre ++ f :: post)) callback s
      = ({ cb := (callback st'.cb (extractName f) f).1, visited := st'.visited + 1,
           calls := st'.calls ++ [(extractName f, f)] }, some (walkError f err)) := by
    unfold LocalBackup.Restore
    simp only
    rw [h1]
    simp only at h3
    rw [← h3] at hfail
    rcases hc : callback st'.cb (extractName f) f with ⟨c, e⟩
    rw [hc] at hfail
    simp only at hfail
    subst hfail
    simp [archiverWalk, restoreVisitor, hdone, hfile, hc, hstop]
  rw [hres]
  simp only [List.nil_append] at h2
  refine ⟨rfl, by simp, walkError_carries f err, ?_, ?_⟩
  · simp only [h2, fileCalls]
  · simp only [h4, Nat.zero_add]

/-- C8 at a callback with a state, which fails on its second invocation. On
the archive `a.txt`, `dir/`, `dir/b.txt`, `c.txt` the second invocation is on
`dir/b.txt`: the error `walking dir/b.txt: disk full` is returned and `c.txt`
is not visited. On the archive that holds `a.txt` twice the failing entry also
occurs before itself: the walk ends at the second `a.txt`. -/
theorem Restore_callback_error_witness :
    ((LocalBackup.Restore headerName neverDone (.ok (exampleArchive ++ [laterFile]))
        failingCallback 0).2 = some (.other "walking dir/b.txt: disk full") ∧
      (LocalBackup.Restore headerName neverDone (.ok (exampleArchive ++ [laterFile]))
        failingCallback 0).1.calls.map Prod.fst = ["a.txt", "dir/b.txt"] ∧
      (LocalBackup.Restore headerName neverDone (.ok (exampleArchive ++ [laterFile]))
        failingCallback 0).1.visited = 3) ∧
    ((LocalBackup.Restore headerName neverDone (.ok repeatedArchive) failingCallback 0).2
        = some (.other "walking a.txt: disk full") ∧
      (LocalBackup.Restore headerName neverDone (.ok repeatedArchive)
        failingCallback 0).1.calls.map Prod.fst = ["a.txt", "a.txt"] ∧
      (LocalBackup.Restore headerName neverDone (.ok repeatedArchive)
        failingCallback 0).1.visited = 2) := by
  have h := Restore_callback_error headerName neverDone
    [{ Name := "a.txt", IsDir := false, Mode := 420, ModTime := 1700000000 },
     { Name := "dir/", IsDir := true, Mode := 493, ModTime := 1700000001 }]
    [laterFile]
    { Name := "dir/b.txt", IsDir := false, Mode := 420, ModTime := 1700000002 }
    failingCallback 0 (.other "disk full")
    (fun _ => rfl) rfl
    (by
      intro p g q hsplit hdir
      rcases p with _ | ⟨x, _ | ⟨y, _ | ⟨z, p⟩⟩⟩
      · simp only [List.nil_append, List.cons.injEq] at hsplit
        obtain ⟨rfl, -⟩ := hsplit
        rfl
      · simp only [List.cons_append, List.nil_append, List.cons.injEq] at hsplit
        obtain ⟨-, rfl, -⟩ := hsplit
        simp at hdir
      · simp at hsplit
      · simp at hsplit)
    rfl (by decide)
  have h' := Restore_callback_error headerName neverDone
    [{ Name := "a.txt", IsDir := false, Mode := 420, ModTime := 1700000000 }]
    [{ Name := "c.txt", IsDir := false, Mode := 420, ModTime := 1700000003 }]
    { Name := "a.txt", IsDir := false, Mode := 420, ModTime := 1700000000 }
    failingCallback 0 (.other "disk full")
    (fun _ => rfl) rfl
    (by
      intro p g q hsplit hdir
      rcases p with _ | ⟨x, _ | ⟨y, p⟩⟩
      · simp only [List.nil_append, List.cons.injEq] at hsplit
        obtain ⟨rfl, -⟩ := hsplit
        rfl
      · simp at hsplit
      · simp at hsplit)
    rfl (by decide)
  refine ⟨⟨?_, ?_, ?_⟩, ⟨?_, ?_, ?_⟩⟩
  · exact h.1.trans (by decide)
  · exact (congrArg (List.map Prod.fst) h.2.2.2.1).trans (by decide)
  · exact h.2.2.2.2
  · exact h'.1.trans (by decide)
  · exact (congrArg (List.map Prod.fst) h'.2.2.2.1).trans (by decide)
  · exact h'.2.2.2.2

end BackupLocal
